import Mathlib

/-!
Shallow embedding of the gemini-browser-extension time tracker.

Source of the embedding:
* src/background/main.ts — the session-tracking state machine
  (tabStates, activeTabId, isActive, getDomainFromUrl, saveCurrentTabTime,
  onTabActivated, onTabUpdated, onWindowFocusChanged, onTabRemoved).
* src/db/database.ts — the aggregation layer (getTodayStats and the
  Dexie-backed time-range query it reads from).

Modelling conventions:
* Time stamps are integers (milliseconds, Date.now()).
* The host browser's URL parser (the hostname component of `new URL(url)`)
  and the tab-info lookup `chrome.tabs.get` are external collaborators; they
  enter the embedding as explicit parameters (`ph : String → Option String`,
  `tabResult : Option Tab`).
* JavaScript exceptions are modelled by the `threw` flag of `HResult`:
  mutations performed before the throwing `await` are kept, statements after
  it do not run, and the rejection propagates to the handler's caller.
* A store write (`addVisit`) that succeeds is appended to `writes`; a failing
  write is modelled by `storeOk = false`, which throws at the `await addVisit`
  call, exactly as a rejected promise does in the source.
-/

/-- One persisted visit record (interface Visit of src/db/database.ts,
minus the store-assigned id). -/
structure Visit where
  url : String
  domain : String
  startTime : Int
  endTime : Int
  duration : Int
deriving DecidableEq

/-- The per-tab session data (interface TabState of src/background/main.ts). -/
structure TabState where
  startTime : Int
  url : String
  domain : String
deriving DecidableEq

/-- The process-wide tracking state of src/background/main.ts:
`tabStates` (a map keyed by tab id), `activeTabId`, `isActive`. -/
structure TrackerState where
  tabStates : Nat → Option TabState
  activeTabId : Option Nat
  isActive : Bool

/-- Result of running one handler: the state after the handler returned or
threw, the visit records successfully inserted into the store during the
call, and whether the call ended in a thrown (propagating) rejection. -/
structure HResult where
  st : TrackerState
  writes : List Visit
  threw : Bool

/-- Tab metadata as returned by the chrome.tabs.get lookup
(`url` may be absent, `active` is the active flag). -/
structure Tab where
  url : Option String
  active : Bool

/-- JavaScript `s.replace(pat, '')` on character lists: remove the first
occurrence of `pat`, scanning left to right; if `pat` never occurs the
list is unchanged. -/
def replaceFirstAux (pat : List Char) : List Char → List Char
  | [] => []
  | c :: rest =>
    if pat.isPrefixOf (c :: rest) then (c :: rest).drop pat.length
    else c :: replaceFirstAux pat rest

/-- JavaScript `s.replace(pat, '')` for strings. -/
def replaceFirst (s pat : String) : String :=
  String.mk (replaceFirstAux pat.data s.data)

/-- Whether `pat` occurs as a contiguous sublist of `s`. -/
def occursIn (pat : List Char) : List Char → Bool
  | [] => pat.isEmpty
  | c :: rest => pat.isPrefixOf (c :: rest) || occursIn pat rest

/-- JavaScript `u.startsWith('http')` — the scheme test of lines 53, 72 of
src/background/main.ts — as a character-list prefix check. -/
def startsWithHttp (u : String) : Bool :=
  ("http".data).isPrefixOf u.data

/-- getDomainFromUrl of src/background/main.ts.  `ph` is the host
platform's URL parser: `ph url = some host` models `new URL(url).hostname`
succeeding with `host`, `ph url = none` models the constructor throwing.
The source returns `hostname.replace('www.', '')` on success and the raw
input string on failure. -/
def getDomainFromUrl (ph : String → Option String) (url : String) : String :=
  match ph url with
  | some host => replaceFirst host "www."
  | none => url

/-- The visit record built at lines 29–35 of src/background/main.ts when a
session is persisted at close time `endTime`. -/
def closeVisit (ts : TabState) (endTime : Int) : Visit :=
  ⟨ts.url, ts.domain, ts.startTime, endTime, endTime - ts.startTime⟩

/-- Remove the entry for `tabId` from the tab-state map
(`delete tabStates[tabId]`). -/
def removeTab (m : Nat → Option TabState) (tabId : Nat) : Nat → Option TabState :=
  fun t => if t = tabId then none else m t

/-- Put a fresh session for `tabId` into the tab-state map
(`tabStates[tabId] = {...}`). -/
def setTab (m : Nat → Option TabState) (tabId : Nat) (ts : TabState) :
    Nat → Option TabState :=
  fun t => if t = tabId then some ts else m t

/-- saveCurrentTabTime of src/background/main.ts.  `now` is Date.now() at
the call; `storeOk = false` makes the `await addVisit` reject, in which case
the `delete` after it does not run and the rejection propagates. -/
def saveCurrentTabTime (now : Int) (storeOk : Bool) (tabId : Nat)
    (st : TrackerState) : HResult :=
  match st.tabStates tabId with
  | none => ⟨st, [], false⟩
  | some ts =>
    let endTime := now
    let duration := endTime - ts.startTime
    if duration > 1000 then
      if storeOk then
        ⟨{ st with tabStates := removeTab st.tabStates tabId },
         [closeVisit ts endTime], false⟩
      else
        ⟨st, [], true⟩
    else
      ⟨{ st with tabStates := removeTab st.tabStates tabId }, [], false⟩

/-- Lines 45–47 of src/background/main.ts: when a different tab currently
holds the tracked session, close it before handling the activation. -/
def closePrev (now : Int) (storeOk : Bool) (tabId : Nat)
    (st : TrackerState) : HResult :=
  match st.activeTabId with
  | some prev =>
    if prev ≠ tabId then saveCurrentTabTime now storeOk prev st
    else ⟨st, [], false⟩
  | none => ⟨st, [], false⟩

/-- onTabActivated of src/background/main.ts.  `tabResult = none` models
`chrome.tabs.get` throwing (caught by the try/catch of lines 51–62);
`ph` is the URL parser used by getDomainFromUrl. -/
def onTabActivated (ph : String → Option String) (now : Int) (storeOk : Bool)
    (tabResult : Option Tab) (tabId : Nat) (st : TrackerState) : HResult :=
  if st.isActive = false then ⟨st, [], false⟩
  else
    let closeRes := closePrev now storeOk tabId st
    if closeRes.threw then closeRes
    else
      let st1 := { closeRes.st with activeTabId := some tabId }
      match tabResult with
      | none => ⟨st1, closeRes.writes, false⟩
      | some tab =>
        match tab.url with
        | some u =>
          if startsWithHttp u then
            ⟨{ st1 with tabStates := setTab st1.tabStates tabId ⟨now, u, getDomainFromUrl ph u⟩ },
             closeRes.writes, false⟩
          else ⟨st1, closeRes.writes, false⟩
        | none => ⟨st1, closeRes.writes, false⟩

/-- onTabUpdated of src/background/main.ts.  `urlChanged` is the truthiness
of `changeInfo.url`; `tab` is the Tab argument of the handler. -/
def onTabUpdated (ph : String → Option String) (now : Int) (storeOk : Bool)
    (tabId : Nat) (urlChanged : Bool) (tab : Tab) (st : TrackerState) : HResult :=
  if st.isActive = false then ⟨st, [], false⟩
  else
    match tab.url with
    | none => ⟨st, [], false⟩
    | some u =>
      if urlChanged && startsWithHttp u then
        let closeRes : HResult :=
          match st.tabStates tabId with
          | some _ => saveCurrentTabTime now storeOk tabId st
          | none => ⟨st, [], false⟩
        if closeRes.threw then closeRes
        else if tab.active then
          ⟨{ closeRes.st with
               tabStates := setTab closeRes.st.tabStates tabId ⟨now, u, getDomainFromUrl ph u⟩,
               activeTabId := some tabId },
           closeRes.writes, false⟩
        else closeRes
      else ⟨st, [], false⟩

/-- chrome.windows.WINDOW_ID_NONE, the no-window sentinel. -/
def WINDOW_ID_NONE : Int := -1

/-- onWindowFocusChanged of src/background/main.ts: set
`isActive = (windowId ≠ WINDOW_ID_NONE)` and, when focus was lost and an
active tab is tracked, close that tab's session. -/
def onWindowFocusChanged (now : Int) (storeOk : Bool) (windowId : Int)
    (st : TrackerState) : HResult :=
  let st1 := { st with isActive := windowId != WINDOW_ID_NONE }
  if windowId = WINDOW_ID_NONE then
    match st1.activeTabId with
    | some a => saveCurrentTabTime now storeOk a st1
    | none => ⟨st1, [], false⟩
  else ⟨st1, [], false⟩

/-- onTabRemoved of src/background/main.ts: close the tab's session
unconditionally, then clear `activeTabId` when it names the removed tab. -/
def onTabRemoved (now : Int) (storeOk : Bool) (tabId : Nat)
    (st : TrackerState) : HResult :=
  let r := saveCurrentTabTime now storeOk tabId st
  if r.threw then r
  else if r.st.activeTabId = some tabId then
    ⟨{ r.st with activeTabId := none }, r.writes, false⟩
  else r

/-- One step of the grouping loop of getTodayStats (lines 62–68 of
src/db/database.ts): `domainStats[domain] += duration` when the key is
present, `domainStats[domain] = duration` otherwise.  The association list
keeps JavaScript object insertion order, which is what Object.entries
iterates for these (non-index) string keys. -/
def upsert (l : List (String × Int)) (d : String) (dur : Int) :
    List (String × Int) :=
  match l with
  | [] => [(d, dur)]
  | (k, v) :: rest =>
    if k = d then (k, v + dur) :: rest else (k, v) :: upsert rest d dur

/-- The domainStats object after the forEach loop of getTodayStats. -/
def groupStats (visits : List Visit) : List (String × Int) :=
  visits.foldl (fun acc v => upsert acc v.domain v.duration) []

/-- Comparator of line 72 of src/db/database.ts: `(a, b) => b.duration -
a.duration` sorts descending; JavaScript Array.prototype.sort is stable. -/
def statOrder (a b : String × Int) : Bool :=
  decide (b.2 ≤ a.2)

/-- The aggregation body of getTodayStats (lines 60–73 of
src/db/database.ts) applied to the visits fetched for today: group by
domain summing durations, then stable-sort descending by total duration. -/
def domainStatsOf (visits : List Visit) : List (String × Int) :=
  (groupStats visits).mergeSort statOrder

/-- getVisitsByDate's underlying range query (lines 36–39 of
src/db/database.ts): Dexie `where('startTime').between(lo, hi)` with the
default bounds, lower inclusive and upper exclusive. -/
def queryByTimeRange (store : List Visit) (lo hi : Int) : List Visit :=
  store.filter (fun v => decide (lo ≤ v.startTime) && decide (v.startTime < hi))

/-- getTodayStats of src/db/database.ts, with the calendar-day bounds the
host computes from `new Date()` passed in explicitly as `lo`/`hi`. -/
def getTodayStats (store : List Visit) (lo hi : Int) : List (String × Int) :=
  domainStatsOf (queryByTimeRange store lo hi)

/-- Sum of the durations of the visits whose domain is exactly `d`
(exact string equality) — the total the spec says each group carries. -/
def sumFor (visits : List Visit) (d : String) : Int :=
  ((visits.filter (fun v => v.domain = d)).map Visit.duration).sum

/-- Association-list lookup: the value the domainStats object holds for
key `d`, if any. -/
def findVal (l : List (String × Int)) (d : String) : Option Int :=
  match l with
  | [] => none
  | (k, v) :: rest => if k = d then some v else findVal rest d

/-- A concrete URL parser for the mid-host example: it resolves
https://sub.www.example.com/ to its hostname, as the browser URL
constructor does. -/
def phC1 : String → Option String := fun u =>
  if u = "https://sub.www.example.com/" then some "sub.www.example.com" else none

/-- A concrete URL parser for the leading-www example. -/
def phC1w : String → Option String := fun u =>
  if u = "https://www.example.com/path" then some "www.example.com" else none

/-- A URL parser that always fails, for scenarios where no session URL is
ever parsed. -/
def phTriv : String → Option String := fun _ => none

/-- A concrete URL parser resolving the navigation target of the C3
witness. -/
def phB : String → Option String := fun u =>
  if u = "https://b.example/x" then some "b.example" else none

/-- A concrete session used by witnesses: started at time 0. -/
def tsEx : TabState := ⟨0, "https://a.example/", "a.example"⟩

/-- A concrete tracking state used by witnesses: tab 1 holds the session
tsEx, tab 1 is active, and the window has focus. -/
def stEx : TrackerState :=
  ⟨fun t => if t = 1 then some tsEx else none, some 1, true⟩

/-- The three records of the aggregation example of the spec:
google.com for 120000 ms, github.com for 300000 ms, google.com again for
60000 ms. -/
def statsExample : List Visit :=
  [⟨"https://google.com/", "google.com", 0, 120000, 120000⟩,
   ⟨"https://github.com/", "github.com", 0, 300000, 300000⟩,
   ⟨"https://google.com/a", "google.com", 200000, 260000, 60000⟩]

theorem replaceFirstAux_not_occurs (pat s : List Char)
    (h : occursIn pat s = false) : replaceFirstAux pat s = s := by
  induction s with
  | nil => rfl
  | cons c rest ih =>
    rw [occursIn, Bool.or_eq_false_iff] at h
    rw [replaceFirstAux, if_neg (by simp [h.1]), ih h.2]

theorem replaceFirstAux_of_leading (pat s : List Char)
    (h : pat.isPrefixOf s = true) : replaceFirstAux pat s = s.drop pat.length := by
  cases s with
  | nil =>
    cases pat with
    | nil => rfl
    | cons p ps => simp [List.isPrefixOf] at h
  | cons c rest => rw [replaceFirstAux, if_pos h]

/-- C1: the claim states that for a URL whose host contains the substring
www. only at a non-leading position, domain extraction returns the host
unchanged.  The source computes `hostname.replace('www.', '')`, and
JavaScript String.replace with a string pattern removes the first
occurrence anywhere in the host, so https://sub.www.example.com/ yields
sub.example.com, not the unchanged host sub.www.example.com. -/
theorem C1_counterexample :
    getDomainFromUrl phC1 "https://sub.www.example.com/" = "sub.example.com" ∧
    occursIn ("www.".data) ("sub.www.example.com".data) = true ∧
    (("www.".data).isPrefixOf ("sub.www.example.com".data)) = false ∧
    ("sub.example.com" ≠ "sub.www.example.com") := by
  refine ⟨?_, ?_, ?_, ?_⟩ <;> decide

/-- C1 (amended): domain extraction parses the URL and removes the FIRST
occurrence of www. anywhere in the host (not only a leading one): a host
beginning with www. has exactly those four characters stripped, a host in
which www. never occurs is returned unchanged, a host with only a mid-host
occurrence has that occurrence removed (https://sub.www.example.com/
yields sub.example.com), and on URL parse failure the raw input string is
returned as the domain. -/
theorem C1_domain_extraction (ph : String → Option String) (url : String) :
    (∀ host, ph url = some host →
       getDomainFromUrl ph url = replaceFirst host "www." ∧
       (("www.".data).isPrefixOf host.data = true →
          getDomainFromUrl ph url = String.mk (host.data.drop 4)) ∧
       (occursIn ("www.".data) host.data = false →
          getDomainFromUrl ph url = host)) ∧
    (ph url = none → getDomainFromUrl ph url = url) ∧
    (getDomainFromUrl phC1 "https://sub.www.example.com/" = "sub.example.com") := by
  refine ⟨?_, ?_, by decide⟩
  · intro host hp
    refine ⟨by simp only [getDomainFromUrl, hp], ?_, ?_⟩
    · intro hpre
      simp only [getDomainFromUrl, hp, replaceFirst]
      rw [replaceFirstAux_of_leading _ _ hpre]
      rfl
    · intro hno
      simp only [getDomainFromUrl, hp, replaceFirst]
      rw [replaceFirstAux_not_occurs _ _ hno]
  · intro hp
    simp only [getDomainFromUrl, hp]

/-- Witness for C1: the amended theorem applied to the concrete URL
https://www.example.com/path, whose host starts with www., yields
example.com. -/
theorem C1_domain_extraction_witness :
    getDomainFromUrl phC1w "https://www.example.com/path" = "example.com" :=
  ((((C1_domain_extraction phC1w "https://www.example.com/path").1
      "www.example.com" (by decide)).2.1 (by decide)).trans (by decide))

theorem removeTab_self (m : Nat → Option TabState) (tabId : Nat) :
    removeTab m tabId tabId = none := by
  simp [removeTab]

theorem removeTab_other (m : Nat → Option TabState) (tabId t : Nat)
    (h : t ≠ tabId) : removeTab m tabId t = m t := by
  simp [removeTab, h]

theorem setTab_self (m : Nat → Option TabState) (tabId : Nat) (ts : TabState) :
    setTab m tabId ts tabId = some ts := by
  simp [setTab]

theorem setTab_other (m : Nat → Option TabState) (tabId : Nat) (ts : TabState)
    (t : Nat) (h : t ≠ tabId) : setTab m tabId ts t = m t := by
  simp [setTab, h]

theorem save_of_no_session (now : Int) (storeOk : Bool) (tabId : Nat)
    (st : TrackerState) (h : st.tabStates tabId = none) :
    saveCurrentTabTime now storeOk tabId st = ⟨st, [], false⟩ := by
  simp [saveCurrentTabTime, h]

theorem save_of_short (now : Int) (storeOk : Bool) (tabId : Nat)
    (st : TrackerState) (ts : TabState) (h : st.tabStates tabId = some ts)
    (hd : ¬ now - ts.startTime > 1000) :
    saveCurrentTabTime now storeOk tabId st =
      ⟨{ st with tabStates := removeTab st.tabStates tabId }, [], false⟩ := by
  simp [saveCurrentTabTime, h, hd]

theorem save_of_long (now : Int) (tabId : Nat)
    (st : TrackerState) (ts : TabState) (h : st.tabStates tabId = some ts)
    (hd : now - ts.startTime > 1000) :
    saveCurrentTabTime now true tabId st =
      ⟨{ st with tabStates := removeTab st.tabStates tabId },
       [closeVisit ts now], false⟩ := by
  simp [saveCurrentTabTime, h, hd]

theorem save_of_long_fail (now : Int) (tabId : Nat)
    (st : TrackerState) (ts : TabState) (h : st.tabStates tabId = some ts)
    (hd : now - ts.startTime > 1000) :
    saveCurrentTabTime now false tabId st = ⟨st, [], true⟩ := by
  simp [saveCurrentTabTime, h, hd]

/-- C2: the claim states that when the store insert rejects, the in-memory
entry for the tab is still removed and the failure does not raise.  In the
source, saveCurrentTabTime has no try/catch: a rejected `await addVisit`
aborts the function before `delete tabStates[tabId]` runs, so the entry
stays in the map and the rejection propagates.  Concretely, closing tab 1
of stEx at time 5000 with a failing store throws and leaves the entry. -/
theorem C2_counterexample :
    (saveCurrentTabTime 5000 false 1 stEx).threw = true ∧
    (saveCurrentTabTime 5000 false 1 stEx).st.tabStates 1 = some tsEx := by
  exact ⟨rfl, rfl⟩

/-- C2 (amended): when the store insert fails while closing a session whose
duration exceeds the floor, the in-memory entry for that tab is NOT
removed — the whole state is left unchanged, nothing is written — and the
rejection propagates out of saveCurrentTabTime and out of the event
handler (here onTabRemoved) to its caller. -/
theorem C2_store_failure (now : Int) (tabId : Nat) (st : TrackerState)
    (ts : TabState) (hs : st.tabStates tabId = some ts)
    (hd : now - ts.startTime > 1000) :
    saveCurrentTabTime now false tabId st = ⟨st, [], true⟩ ∧
    onTabRemoved now false tabId st = ⟨st, [], true⟩ := by
  have h1 := save_of_long_fail now tabId st ts hs hd
  refine ⟨h1, ?_⟩
  simp [onTabRemoved, h1]

/-- Witness for C2: the amended theorem at state stEx, tab 1, time 5000. -/
theorem C2_store_failure_witness :
    saveCurrentTabTime 5000 false 1 stEx = ⟨stEx, [], true⟩ ∧
    onTabRemoved 5000 false 1 stEx = ⟨stEx, [], true⟩ :=
  C2_store_failure 5000 1 stEx tsEx rfl (by decide)

/-- C4: closing a session submits a record to the store iff the computed
duration now - startTime is strictly greater than 1000 ms, and at most one
record per close: duration ≤ 1000 yields zero writes, duration > 1000
yields exactly the one record built by closeVisit; the close never throws
(with the store healthy) and always removes the entry. -/
theorem C4_duration_floor (now : Int) (tabId : Nat) (st : TrackerState)
    (ts : TabState) (hs : st.tabStates tabId = some ts) :
    ((saveCurrentTabTime now true tabId st).writes.length = 1 ↔
       now - ts.startTime > 1000) ∧
    (now - ts.startTime ≤ 1000 →
       (saveCurrentTabTime now true tabId st).writes = []) ∧
    (now - ts.startTime > 1000 →
       (saveCurrentTabTime now true tabId st).writes = [closeVisit ts now]) ∧
    (saveCurrentTabTime now true tabId st).threw = false ∧
    (saveCurrentTabTime now true tabId st).st.tabStates tabId = none := by
  by_cases hd : now - ts.startTime > 1000
  · rw [save_of_long now tabId st ts hs hd]
    simp [removeTab_self, hd]
    omega
  · rw [save_of_short now true tabId st ts hs hd]
    simp [removeTab_self, hd]

/-- Witness for C4: closing the 5000 ms session of stEx yields exactly one
record. -/
theorem C4_duration_floor_witness :
    ((saveCurrentTabTime 5000 true 1 stEx).writes.length = 1 ↔
       5000 - tsEx.startTime > 1000) ∧
    (5000 - tsEx.startTime ≤ 1000 →
       (saveCurrentTabTime 5000 true 1 stEx).writes = []) ∧
    (5000 - tsEx.startTime > 1000 →
       (saveCurrentTabTime 5000 true 1 stEx).writes = [closeVisit tsEx 5000]) ∧
    (saveCurrentTabTime 5000 true 1 stEx).threw = false ∧
    (saveCurrentTabTime 5000 true 1 stEx).st.tabStates 1 = none :=
  C4_duration_floor 5000 1 stEx tsEx rfl

/-- C7: a tab-removed event, in any state (focused or not), closes any open
session for that tab and removes its entry; activeTabId is cleared iff it
equalled the removed tab; other tabs' entries and the focus flag are
unchanged; a record is written iff a session was open and its duration
exceeded the floor. -/
theorem C7_tab_removed (now : Int) (tabId : Nat) (st : TrackerState) :
    (onTabRemoved now true tabId st).threw = false ∧
    (onTabRemoved now true tabId st).st.tabStates tabId = none ∧
    (∀ t, t ≠ tabId →
       (onTabRemoved now true tabId st).st.tabStates t = st.tabStates t) ∧
    (onTabRemoved now true tabId st).st.activeTabId =
      (if st.activeTabId = some tabId then none else st.activeTabId) ∧
    (onTabRemoved now true tabId st).st.isActive = st.isActive ∧
    (∀ ts, st.tabStates tabId = some ts →
       (onTabRemoved now true tabId st).writes =
         (if now - ts.startTime > 1000 then [closeVisit ts now] else [])) ∧
    (st.tabStates tabId = none → (onTabRemoved now true tabId st).writes = []) := by
  rcases hst : st.tabStates tabId with _ | ts
  · rw [onTabRemoved, save_of_no_session now true tabId st hst]
    by_cases ha : st.activeTabId = some tabId <;>
      simp [ha, hst, removeTab_self, removeTab_other]
  · have hsv : ∀ s, s = saveCurrentTabTime now true tabId st →
        s = ⟨{ st with tabStates := removeTab st.tabStates tabId },
             (if now - ts.startTime > 1000 then [closeVisit ts now] else []),
             false⟩ := by
      intro s hsx
      by_cases hd : now - ts.startTime > 1000
      · rw [hsx, save_of_long now tabId st ts hst hd, if_pos hd]
      · rw [hsx, save_of_short now true tabId st ts hst hd, if_neg hd]
    have hs2 := hsv _ rfl
    have hrt : ∀ t, ¬t = tabId → removeTab st.tabStates tabId t = st.tabStates t :=
      fun t ht => removeTab_other _ _ _ ht
    rw [onTabRemoved, hs2]
    by_cases ha : st.activeTabId = some tabId <;>
      (simp [ha, hst, removeTab_self]; exact hrt)

/-- Witness for C7: removing tab 1 of stEx at time 5000. -/
theorem C7_tab_removed_witness :
    (onTabRemoved 5000 true 1 stEx).threw = false ∧
    (onTabRemoved 5000 true 1 stEx).st.tabStates 1 = none ∧
    (∀ t, t ≠ 1 →
       (onTabRemoved 5000 true 1 stEx).st.tabStates t = stEx.tabStates t) ∧
    (onTabRemoved 5000 true 1 stEx).st.activeTabId =
      (if stEx.activeTabId = some 1 then none else stEx.activeTabId) ∧
    (onTabRemoved 5000 true 1 stEx).st.isActive = stEx.isActive ∧
    (∀ ts, stEx.tabStates 1 = some ts →
       (onTabRemoved 5000 true 1 stEx).writes =
         (if 5000 - ts.startTime > 1000 then [closeVisit ts 5000] else [])) ∧
    (stEx.tabStates 1 = none → (onTabRemoved 5000 true 1 stEx).writes = []) :=
  C7_tab_removed 5000 1 stEx

theorem save_ok_not_threw (now : Int) (tabId : Nat) (st : TrackerState) :
    (saveCurrentTabTime now true tabId st).threw = false := by
  rcases h : st.tabStates tabId with _ | ts
  · rw [save_of_no_session now true tabId st h]
  · by_cases hd : now - ts.startTime > 1000
    · rw [save_of_long now tabId st ts h hd]
    · rw [save_of_short now true tabId st ts h hd]

theorem save_preserves_other (now : Int) (storeOk : Bool) (tabId t : Nat)
    (st : TrackerState) (h : t ≠ tabId) :
    (saveCurrentTabTime now storeOk tabId st).st.tabStates t = st.tabStates t := by
  rcases hs : st.tabStates tabId with _ | ts
  · rw [save_of_no_session now storeOk tabId st hs]
  · by_cases hd : now - ts.startTime > 1000
    · cases storeOk
      · rw [save_of_long_fail now tabId st ts hs hd]
      · rw [save_of_long now tabId st ts hs hd]
        exact removeTab_other _ _ _ h
    · rw [save_of_short now storeOk tabId st ts hs hd]
      exact removeTab_other _ _ _ h

theorem save_preserves_flags (now : Int) (storeOk : Bool) (tabId : Nat)
    (st : TrackerState) :
    (saveCurrentTabTime now storeOk tabId st).st.activeTabId = st.activeTabId ∧
    (saveCurrentTabTime now storeOk tabId st).st.isActive = st.isActive := by
  rcases hs : st.tabStates tabId with _ | ts
  · rw [save_of_no_session now storeOk tabId st hs]
    exact ⟨rfl, rfl⟩
  · by_cases hd : now - ts.startTime > 1000
    · cases storeOk
      · rw [save_of_long_fail now tabId st ts hs hd]
        exact ⟨rfl, rfl⟩
      · rw [save_of_long now tabId st ts hs hd]
        exact ⟨rfl, rfl⟩
    · rw [save_of_short now storeOk tabId st ts hs hd]
      exact ⟨rfl, rfl⟩

theorem closePrev_not_threw (now : Int) (tabId : Nat) (st : TrackerState) :
    (closePrev now true tabId st).threw = false := by
  rw [closePrev]
  rcases st.activeTabId with _ | prev
  · rfl
  · dsimp only
    by_cases hp : prev ≠ tabId
    · rw [if_pos hp]
      exact save_ok_not_threw now prev st
    · rw [if_neg hp]

theorem closePrev_preserves_target (now : Int) (storeOk : Bool) (tabId : Nat)
    (st : TrackerState) :
    (closePrev now storeOk tabId st).st.tabStates tabId = st.tabStates tabId := by
  rw [closePrev]
  rcases st.activeTabId with _ | prev
  · rfl
  · dsimp only
    by_cases hp : prev ≠ tabId
    · rw [if_pos hp]
      exact save_preserves_other now storeOk prev tabId st (fun he => hp he.symm)
    · rw [if_neg hp]

/-- C6: with the window focused and a session open for the active tab, a
window-focus-changed event carrying the no-window sentinel closes that
session — writing a record iff its duration exceeds the floor — removes
its entry from the map, clears the focus flag, and touches nothing else
(other tabs' entries, activeTabId); a focus-changed event for a real
window only sets the focus flag: no session is opened and nothing is
written. -/
theorem C6_focus_loss (now : Int) (a : Nat) (st : TrackerState)
    (ts : TabState) (hfoc : st.isActive = true)
    (ha : st.activeTabId = some a) (hs : st.tabStates a = some ts) :
    (onWindowFocusChanged now true WINDOW_ID_NONE st).threw = false ∧
    (onWindowFocusChanged now true WINDOW_ID_NONE st).st.tabStates a = none ∧
    (onWindowFocusChanged now true WINDOW_ID_NONE st).st.isActive = false ∧
    (onWindowFocusChanged now true WINDOW_ID_NONE st).st.activeTabId = some a ∧
    (∀ t, t ≠ a →
       (onWindowFocusChanged now true WINDOW_ID_NONE st).st.tabStates t =
         st.tabStates t) ∧
    (onWindowFocusChanged now true WINDOW_ID_NONE st).writes =
      (if now - ts.startTime > 1000 then [closeVisit ts now] else []) ∧
    (∀ wid, wid ≠ WINDOW_ID_NONE →
       onWindowFocusChanged now true wid st =
         ⟨{ st with isActive := true }, [], false⟩) := by
  have hkey : onWindowFocusChanged now true WINDOW_ID_NONE st =
      saveCurrentTabTime now true a { st with isActive := false } := by
    simp [onWindowFocusChanged, ha]
  have hs2 : ({ st with isActive := false } : TrackerState).tabStates a = some ts := hs
  refine ⟨?_, ?_, ?_, ?_, ?_, ?_, ?_⟩
  · rw [hkey]
    exact save_ok_not_threw now a _
  · by_cases hd : now - ts.startTime > 1000
    · rw [hkey, save_of_long now a _ ts hs2 hd]
      exact removeTab_self _ _
    · rw [hkey, save_of_short now true a _ ts hs2 hd]
      exact removeTab_self _ _
  · rw [hkey]
    exact (save_preserves_flags now true a _).2
  · rw [hkey, (save_preserves_flags now true a _).1]
    exact ha
  · intro t ht
    rw [hkey]
    exact save_preserves_other now true a t _ ht
  · by_cases hd : now - ts.startTime > 1000
    · rw [hkey, save_of_long now a _ ts hs2 hd, if_pos hd]
    · rw [hkey, save_of_short now true a _ ts hs2 hd, if_neg hd]
  · intro wid hw
    simp [onWindowFocusChanged, hw]

/-- Witness for C6: losing focus over stEx at time 5000 closes tab 1's
session with one record. -/
theorem C6_focus_loss_witness :
    (onWindowFocusChanged 5000 true WINDOW_ID_NONE stEx).threw = false ∧
    (onWindowFocusChanged 5000 true WINDOW_ID_NONE stEx).st.tabStates 1 = none ∧
    (onWindowFocusChanged 5000 true WINDOW_ID_NONE stEx).st.isActive = false ∧
    (onWindowFocusChanged 5000 true WINDOW_ID_NONE stEx).st.activeTabId = some 1 ∧
    (∀ t, t ≠ 1 →
       (onWindowFocusChanged 5000 true WINDOW_ID_NONE stEx).st.tabStates t =
         stEx.tabStates t) ∧
    (onWindowFocusChanged 5000 true WINDOW_ID_NONE stEx).writes =
      (if 5000 - tsEx.startTime > 1000 then [closeVisit tsEx 5000] else []) ∧
    (∀ wid, wid ≠ WINDOW_ID_NONE →
       onWindowFocusChanged 5000 true wid stEx =
         ⟨{ stEx with isActive := true }, [], false⟩) :=
  C6_focus_loss 5000 1 stEx tsEx rfl rfl rfl

/-- C8: when the window is focused and the chrome.tabs.get lookup fails,
onTabActivated swallows the failure (nothing propagates), opens no session
for the activated tab, performs no store write beyond those of closing the
previous tab's session, and leaves the sessions map exactly as closePrev
left it. -/
theorem C8_getTab_failure (ph : String → Option String) (now : Int)
    (tabId : Nat) (st : TrackerState) (hfoc : st.isActive = true) :
    onTabActivated ph now true none tabId st =
      ⟨{ (closePrev now true tabId st).st with activeTabId := some tabId },
       (closePrev now true tabId st).writes, false⟩ ∧
    (onTabActivated ph now true none tabId st).st.tabStates tabId =
      st.tabStates tabId := by
  have h1 : onTabActivated ph now true none tabId st =
      ⟨{ (closePrev now true tabId st).st with activeTabId := some tabId },
       (closePrev now true tabId st).writes, false⟩ := by
    rw [onTabActivated, if_neg (by simp [hfoc])]
    simp only [closePrev_not_threw, Bool.false_eq_true, if_false]
  refine ⟨h1, ?_⟩
  rw [h1]
  exact closePrev_preserves_target now true tabId st

/-- Witness for C8: a failed lookup while activating tab 2 over stEx closes
tab 1's session (one record) and opens nothing for tab 2. -/
theorem C8_getTab_failure_witness :
    onTabActivated phTriv 5000 true none 2 stEx =
      ⟨{ (closePrev 5000 true 2 stEx).st with activeTabId := some 2 },
       (closePrev 5000 true 2 stEx).writes, false⟩ ∧
    (onTabActivated phTriv 5000 true none 2 stEx).st.tabStates 2 =
      stEx.tabStates 2 :=
  C8_getTab_failure phTriv 5000 2 stEx rfl

/-- C10: with the window unfocused, tab-activated and tab-updated events
are ignored entirely: the state (sessions map, activeTabId, focus flag) is
returned unchanged, nothing is written and nothing throws. -/
theorem C10_unfocused_frame (ph : String → Option String) (now : Int)
    (storeOk : Bool) (tabResult : Option Tab) (tabId : Nat)
    (urlChanged : Bool) (tab : Tab) (st : TrackerState)
    (hfoc : st.isActive = false) :
    onTabActivated ph now storeOk tabResult tabId st = ⟨st, [], false⟩ ∧
    onTabUpdated ph now storeOk tabId urlChanged tab st = ⟨st, [], false⟩ := by
  constructor
  · rw [onTabActivated, if_pos hfoc]
  · rw [onTabUpdated, if_pos hfoc]

/-- Witness for C10: a blurred state ignores both events. -/
theorem C10_unfocused_frame_witness :
    onTabActivated phTriv 5000 true (some ⟨some "https://b.example/", true⟩) 1
      { stEx with isActive := false } = ⟨{ stEx with isActive := false }, [], false⟩ ∧
    onTabUpdated phTriv 5000 true 1 true ⟨some "https://b.example/", true⟩
      { stEx with isActive := false } = ⟨{ stEx with isActive := false }, [], false⟩ :=
  C10_unfocused_frame phTriv 5000 true (some ⟨some "https://b.example/", true⟩)
    1 true ⟨some "https://b.example/", true⟩ { stEx with isActive := false } rfl

/-- C3: the claim states that a tab-updated event with a URL change always
closes the tab's open session, regardless of the scheme of the new URL.
In the source the whole body is guarded by `tab.url.startsWith('http')`,
so navigating tab 1 of stEx (focused window, active tab, session far above
the duration floor) to chrome://settings leaves the session open and
writes nothing, where the claim demands the session be closed with a
record emitted. -/
theorem C3_counterexample :
    (onTabUpdated phTriv 9999 true 1 true
       ⟨some "chrome://settings", true⟩ stEx).st.tabStates 1 = some tsEx ∧
    (onTabUpdated phTriv 9999 true 1 true
       ⟨some "chrome://settings", true⟩ stEx).writes = [] ∧
    startsWithHttp "chrome://settings" = false ∧
    (9999 : Int) - tsEx.startTime > 1000 := by
  refine ⟨?_, ?_, ?_, ?_⟩ <;> decide

/-- C3 (amended): with the window focused, for a tab-updated event carrying
a URL change on a tab with an open session: when the new URL starts with
http the session is closed — a record is written iff its duration exceeds
the floor — regardless of whether the tab is active, and a fresh session is
then opened (and activeTabId set) iff the tab is active; when the new URL
does not start with http, or the event carries no URL change, the handler
leaves the state unchanged and writes nothing. -/
theorem C3_tab_updated (ph : String → Option String) (now : Int) (tabId : Nat)
    (u : String) (act : Bool) (st : TrackerState) (ts : TabState)
    (hfoc : st.isActive = true) (hs : st.tabStates tabId = some ts) :
    (startsWithHttp u = true →
       (onTabUpdated ph now true tabId true ⟨some u, act⟩ st).threw = false ∧
       (onTabUpdated ph now true tabId true ⟨some u, act⟩ st).writes =
         (if now - ts.startTime > 1000 then [closeVisit ts now] else []) ∧
       (act = true →
          (onTabUpdated ph now true tabId true ⟨some u, act⟩ st).st.tabStates tabId =
            some ⟨now, u, getDomainFromUrl ph u⟩ ∧
          (onTabUpdated ph now true tabId true ⟨some u, act⟩ st).st.activeTabId =
            some tabId) ∧
       (act = false →
          (onTabUpdated ph now true tabId true ⟨some u, act⟩ st).st.tabStates tabId =
            none ∧
          (onTabUpdated ph now true tabId true ⟨some u, act⟩ st).st.activeTabId =
            st.activeTabId) ∧
       (∀ t, t ≠ tabId →
          (onTabUpdated ph now true tabId true ⟨some u, act⟩ st).st.tabStates t =
            st.tabStates t) ∧
       (onTabUpdated ph now true tabId true ⟨some u, act⟩ st).st.isActive =
         st.isActive) ∧
    (startsWithHttp u = false →
       onTabUpdated ph now true tabId true ⟨some u, act⟩ st = ⟨st, [], false⟩) ∧
    (onTabUpdated ph now true tabId false ⟨some u, act⟩ st = ⟨st, [], false⟩) := by
  have hw : saveCurrentTabTime now true tabId st =
      ⟨{ st with tabStates := removeTab st.tabStates tabId },
       (if now - ts.startTime > 1000 then [closeVisit ts now] else []), false⟩ := by
    by_cases hd : now - ts.startTime > 1000
    · rw [save_of_long now tabId st ts hs hd, if_pos hd]
    · rw [save_of_short now true tabId st ts hs hd, if_neg hd]
  refine ⟨?_, ?_, ?_⟩
  · intro hu
    have hrun : onTabUpdated ph now true tabId true ⟨some u, act⟩ st =
        (if act = true then
          ⟨{ st with
               tabStates := setTab (removeTab st.tabStates tabId) tabId
                 ⟨now, u, getDomainFromUrl ph u⟩,
               activeTabId := some tabId },
           (if now - ts.startTime > 1000 then [closeVisit ts now] else []), false⟩
        else
          ⟨{ st with tabStates := removeTab st.tabStates tabId },
           (if now - ts.startTime > 1000 then [closeVisit ts now] else []), false⟩) := by
      rw [onTabUpdated, if_neg (by simp [hfoc])]
      dsimp only
      rw [hu]
      simp only [Bool.and_true, Bool.true_and, if_true]
      rw [hs]
      dsimp only
      rw [hw]
      cases act <;> rfl
    rw [hrun]
    cases act
    · rw [if_neg (by decide)]
      refine ⟨rfl, rfl, fun h => absurd h (by decide), ?_, ?_, rfl⟩
      · intro _
        exact ⟨removeTab_self _ _, rfl⟩
      · intro t ht
        exact removeTab_other _ _ _ ht
    · rw [if_pos rfl]
      refine ⟨rfl, rfl, ?_, fun h => absurd h (by decide), ?_, rfl⟩
      · intro _
        exact ⟨setTab_self _ _ _, rfl⟩
      · intro t ht
        exact (setTab_other _ _ _ _ ht).trans (removeTab_other _ _ _ ht)
  · intro hu
    rw [onTabUpdated, if_neg (by simp [hfoc])]
    dsimp only
    rw [hu]
    rfl
  · rw [onTabUpdated, if_neg (by simp [hfoc])]
    dsimp only
    rfl

theorem findVal_upsert_self (l : List (String × Int)) (d : String) (x : Int) :
    findVal (upsert l d x) d = some ((findVal l d).getD 0 + x) := by
  induction l with
  | nil => simp [upsert, findVal]
  | cons kv rest ih =>
    obtain ⟨k, v⟩ := kv
    by_cases hk : k = d
    · subst hk
      simp [upsert, findVal]
    · simp [upsert, findVal, hk, ih]

theorem findVal_upsert_other (l : List (String × Int)) (d : String) (x : Int)
    (e : String) (he : e ≠ d) : findVal (upsert l d x) e = findVal l e := by
  induction l with
  | nil => simp [upsert, findVal, Ne.symm he]
  | cons kv rest ih =>
    obtain ⟨k, v⟩ := kv
    by_cases hk : k = d
    · subst hk
      simp [upsert, findVal, Ne.symm he]
    · simp [upsert, findVal, hk, ih]

theorem isSome_findVal (l : List (String × Int)) (d : String) :
    (findVal l d).isSome = true ↔ d ∈ l.map Prod.fst := by
  induction l with
  | nil => simp [findVal]
  | cons kv rest ih =>
    obtain ⟨k, v⟩ := kv
    by_cases hk : k = d
    · subst hk
      simp [findVal]
    · simp [findVal, hk, ih, Ne.symm hk]

theorem keys_upsert (l : List (String × Int)) (d : String) (x : Int) :
    (upsert l d x).map Prod.fst =
      (if (findVal l d).isSome then l.map Prod.fst
       else l.map Prod.fst ++ [d]) := by
  induction l with
  | nil => simp [upsert, findVal]
  | cons kv rest ih =>
    obtain ⟨k, v⟩ := kv
    by_cases hk : k = d
    · subst hk
      simp [upsert, findVal]
    · simp only [upsert, findVal, hk, if_false, if_neg hk, List.map_cons, ih]
      by_cases hsome : (findVal rest d).isSome
      · simp [hsome]
      · simp [hsome]

theorem nodup_keys_upsert (l : List (String × Int)) (d : String) (x : Int)
    (h : (l.map Prod.fst).Nodup) : ((upsert l d x).map Prod.fst).Nodup := by
  rw [keys_upsert]
  by_cases hsome : (findVal l d).isSome
  · rw [if_pos hsome]
    exact h
  · rw [if_neg hsome]
    rw [List.nodup_append]
    refine ⟨h, List.nodup_singleton d, ?_⟩
    intro a ha hb
    rw [List.mem_singleton] at hb
    subst hb
    exact hsome ((isSome_findVal l a).mpr ha)

theorem sumFor_cons (v : Visit) (vs : List Visit) (d : String) :
    sumFor (v :: vs) d =
      (if v.domain = d then v.duration else 0) + sumFor vs d := by
  by_cases hd : v.domain = d
  · simp [sumFor, List.filter_cons, hd]
  · simp [sumFor, List.filter_cons, hd]

theorem findVal_foldl_upsert (vs : List Visit) :
    ∀ (acc : List (String × Int)) (d : String),
      findVal (vs.foldl (fun a v => upsert a v.domain v.duration) acc) d =
        (if (findVal acc d).isSome ∨ d ∈ vs.map Visit.domain
         then some ((findVal acc d).getD 0 + sumFor vs d) else none) := by
  induction vs with
  | nil =>
    intro acc d
    rcases h : findVal acc d with _ | x
    · simp [h, sumFor]
    · simp [h, sumFor]
  | cons v vs ih =>
    intro acc d
    rw [List.foldl_cons, ih]
    by_cases hd : v.domain = d
    · subst hd
      rw [findVal_upsert_self]
      simp [sumFor_cons]
      cases findVal acc v.domain <;> simp <;> omega
    · rw [findVal_upsert_other acc v.domain v.duration d (fun he => hd he.symm)]
      have hmem : (d ∈ (v :: vs).map Visit.domain) ↔ d ∈ vs.map Visit.domain := by
        simp [Ne.symm hd]
      rw [sumFor_cons, if_neg hd]
      simp only [hmem, Int.zero_add]

theorem findVal_groupStats (vs : List Visit) (d : String) :
    findVal (groupStats vs) d =
      (if d ∈ vs.map Visit.domain then some (sumFor vs d) else none) := by
  rw [groupStats, findVal_foldl_upsert]
  simp [findVal]

theorem nodup_keys_groupStats (vs : List Visit) :
    ((groupStats vs).map Prod.fst).Nodup := by
  rw [groupStats]
  have key : ∀ acc : List (String × Int), (acc.map Prod.fst).Nodup →
      ((vs.foldl (fun a v => upsert a v.domain v.duration) acc).map Prod.fst).Nodup := by
    induction vs with
    | nil => exact fun acc h => h
    | cons v vs ih =>
      intro acc h
      rw [List.foldl_cons]
      exact ih _ (nodup_keys_upsert acc v.domain v.duration h)
  exact key [] (by simp)

theorem findVal_of_mem (l : List (String × Int)) (d : String) (x : Int)
    (hnd : (l.map Prod.fst).Nodup) (h : (d, x) ∈ l) : findVal l d = some x := by
  induction l with
  | nil => cases h
  | cons kv rest ih =>
    obtain ⟨k, v⟩ := kv
    rcases List.mem_cons.mp h with he | hm
    · cases he
      simp [findVal]
    · have hk : ¬ k = d := by
        intro he
        subst he
        have hx : k ∈ rest.map Prod.fst := List.mem_map.mpr ⟨(k, x), hm, rfl⟩
        exact (List.nodup_cons.mp hnd).1 hx
      rw [findVal, if_neg hk]
      exact ih (List.nodup_cons.mp hnd).2 hm

theorem statOrder_trans (a b c : String × Int) :
    statOrder a b → statOrder b c → statOrder a c := by
  simp [statOrder]
  omega

theorem statOrder_total (a b : String × Int) :
    statOrder a b || statOrder b a := by
  simp [statOrder]
  omega

/-- C5: the aggregation groups today's records by exact string equality of
domain, sums duration within each group — every output pair carries the
total of its domain, each input domain appears exactly once — and sorts
the pairs in descending order of total duration; the spec's concrete
example yields github.com before google.com and the empty input yields the
empty sequence. -/
theorem C5_today_stats (vs : List Visit) :
    List.Pairwise (fun a b : String × Int => b.2 ≤ a.2) (domainStatsOf vs) ∧
    (∀ d, d ∈ (domainStatsOf vs).map Prod.fst ↔ d ∈ vs.map Visit.domain) ∧
    ((domainStatsOf vs).map Prod.fst).Nodup ∧
    (∀ p, p ∈ domainStatsOf vs → p.2 = sumFor vs p.1) ∧
    domainStatsOf [] = [] ∧
    domainStatsOf statsExample =
      [("github.com", 300000), ("google.com", 180000)] := by
  have hperm : ∀ d, d ∈ (domainStatsOf vs).map Prod.fst ↔
      d ∈ (groupStats vs).map Prod.fst := by
    intro d
    exact ((List.mergeSort_perm (groupStats vs) statOrder).map Prod.fst).mem_iff
  refine ⟨?_, ?_, ?_, ?_, ?_, ?_⟩
  · exact (List.sorted_mergeSort statOrder_trans statOrder_total
      (groupStats vs)).imp (fun h => by simpa [statOrder] using h)
  · intro d
    rw [hperm d, ← isSome_findVal, findVal_groupStats]
    by_cases hm : d ∈ vs.map Visit.domain
    · simp [hm]
    · simp [hm]
  · exact ((List.mergeSort_perm (groupStats vs) statOrder).map
      Prod.fst).nodup_iff.mpr (nodup_keys_groupStats vs)
  · intro p hp
    obtain ⟨d, x⟩ := p
    have hp2 : (d, x) ∈ groupStats vs := List.mem_mergeSort.mp hp
    have h1 := findVal_of_mem (groupStats vs) d x (nodup_keys_groupStats vs) hp2
    by_cases hmem : d ∈ vs.map Visit.domain
    · rw [findVal_groupStats, if_pos hmem] at h1
      exact (Option.some.inj h1).symm
    · rw [findVal_groupStats, if_neg hmem] at h1
      simp at h1
  · simp [domainStatsOf, groupStats, List.mergeSort]
  · have h1 : groupStats statsExample =
        [("google.com", 180000), ("github.com", 300000)] := by decide
    rw [domainStatsOf, h1]
    simp [List.mergeSort, List.splitInTwo, List.splitAt, List.splitAt.go,
      statOrder, List.merge]

/-- Witness for C5: in the output for the spec's example, the google.com
pair carries the sum of the two google.com durations. -/
theorem C5_today_stats_witness :
    (("google.com", (180000 : Int))).2 =
      sumFor statsExample (("google.com", (180000 : Int))).1 :=
  (C5_today_stats statsExample).2.2.2.1 ("google.com", 180000)
    (by rw [(C5_today_stats statsExample).2.2.2.2.2]; simp)

/-- C9: getTodayStats is a pure read over the store: two consecutive calls
with no intervening writes (same store contents) and the same calendar-day
bounds return identical sequences, including the relative order of domains
with equal totals. -/
theorem C9_idempotent (store1 store2 : List Visit) (lo1 hi1 lo2 hi2 : Int)
    (hstore : store1 = store2) (hlo : lo1 = lo2) (hhi : hi1 = hi2) :
    getTodayStats store1 lo1 hi1 = getTodayStats store2 lo2 hi2 := by
  rw [hstore, hlo, hhi]

/-- Witness for C9: two calls over the example store with the bounds of one
day return the same sequence. -/
theorem C9_idempotent_witness :
    getTodayStats statsExample 0 86400000 = getTodayStats statsExample 0 86400000 :=
  C9_idempotent statsExample statsExample 0 86400000 0 86400000 rfl rfl rfl

/-- Witness for C3: navigating the active tab 1 of stEx to
https://b.example/x at time 5000 closes the old session with one record
and opens a fresh session for the new URL. -/
theorem C3_tab_updated_witness :
    (onTabUpdated phB 5000 true 1 true
       ⟨some "https://b.example/x", true⟩ stEx).writes =
      (if 5000 - tsEx.startTime > 1000 then [closeVisit tsEx 5000] else []) ∧
    (onTabUpdated phB 5000 true 1 true
       ⟨some "https://b.example/x", true⟩ stEx).st.tabStates 1 =
      some ⟨5000, "https://b.example/x", getDomainFromUrl phB "https://b.example/x"⟩ :=
  ⟨((C3_tab_updated phB 5000 1 "https://b.example/x" true stEx tsEx rfl rfl).1
      (by decide)).2.1,
   (((C3_tab_updated phB 5000 1 "https://b.example/x" true stEx tsEx rfl rfl).1
      (by decide)).2.2.1 rfl).1⟩
